import Mathlib

set_option maxRecDepth 4000

/-!
Formal model of the field-renderer subsystem of the location-map widget:
the value-based type detector, the string parsing helpers, the
standard-field name mapper, the six built-in renderers and the
`FieldRendererRegistry` orchestrator.  Strings are modelled over their
character lists; JavaScript regular expressions are hand-translated to
decidable character-list predicates (ASCII fragment of the JS semantics).
-/

namespace LMW

/-- Characters the JS `\s` class and `String.prototype.trim` treat as
whitespace (ASCII fragment: space, tab, LF, CR, VT, FF). -/
def isWs (c : Char) : Bool :=
  c == ' ' || c == Char.ofNat 9 || c == Char.ofNat 10 || c == Char.ofNat 13 ||
  c == Char.ofNat 11 || c == Char.ofNat 12

/-- Decimal digit, the JS `\d` class. -/
def isDigitC (c : Char) : Bool :=
  decide (48 ≤ c.toNat ∧ c.toNat ≤ 57)

/-- Lowercase ASCII letter, the `[a-z]` class after lowering. -/
def isLowerAlpha (c : Char) : Bool :=
  decide (97 ≤ c.toNat ∧ c.toNat ≤ 122)

/-- ASCII model of the single-character lowering done by
`String.prototype.toLowerCase`. -/
def toLowerC (c : Char) : Char :=
  if 65 ≤ c.toNat ∧ c.toNat ≤ 90 then Char.ofNat (c.toNat + 32) else c

/-- Model of `String.prototype.toLowerCase`. -/
def jsToLower (s : String) : String :=
  ⟨s.data.map toLowerC⟩

/-- Trim JS whitespace from both ends of a character list. -/
def trimL (l : List Char) : List Char :=
  ((l.dropWhile isWs).reverse.dropWhile isWs).reverse

/-- Model of `String.prototype.trim`. -/
def jsTrim (s : String) : String :=
  ⟨trimL s.data⟩

/-- First character test (`String.prototype.startsWith` with a single
character). -/
def headIs (s : String) (c : Char) : Bool :=
  match s.data with
  | [] => false
  | x :: _ => x == c

/-- Last character test. -/
def lastIs (s : String) (c : Char) : Bool :=
  match s.data.getLast? with
  | some x => x == c
  | none => false

/-- Split a character list at every occurrence of `c`, the semantics of
`String.prototype.split` with a single-character separator. -/
def splitOnC (c : Char) : List Char → List (List Char)
  | [] => [[]]
  | x :: xs =>
    let r := splitOnC c xs
    if x = c then [] :: r
    else
      match r with
      | h :: t => (x :: h) :: t
      | [] => [[x]]

/-- Split at the first occurrence of `c`: returns the characters before it
and the characters after it, or `none` when `c` does not occur. -/
def breakAt (c : Char) : List Char → Option (List Char × List Char)
  | [] => none
  | x :: xs =>
    if x = c then some ([], xs)
    else
      match breakAt c xs with
      | some p => some (x :: p.1, p.2)
      | none => none

/-- Field values entering the renderer subsystem: `string | number |
boolean` (numbers modelled as integers). -/
inductive FieldValue where
  | str (s : String)
  | num (n : Int)
  | bool (b : Bool)
deriving DecidableEq

/-- Model of the JS `String(value)` coercion on field values. -/
def strOfValue : FieldValue → String
  | FieldValue.str s => s
  | FieldValue.num n => toString n
  | FieldValue.bool b => if b then "true" else "false"

/-- The closed enumeration of built-in renderer types
(`BuiltInRendererType` in `renderers/types.ts`). -/
inductive BuiltInRendererType where
  | text
  | url
  | email
  | phone
  | array
  | boolean
deriving DecidableEq

/-- The string tag of a built-in renderer type, i.e. the literal the
TypeScript union member denotes at runtime. -/
def BuiltInRendererType.name : BuiltInRendererType → String
  | BuiltInRendererType.text => "text"
  | BuiltInRendererType.url => "url"
  | BuiltInRendererType.email => "email"
  | BuiltInRendererType.phone => "phone"
  | BuiltInRendererType.array => "array"
  | BuiltInRendererType.boolean => "boolean"

/-- The six built-in renderer type tags. -/
def builtinNames : List String :=
  ["text", "url", "email", "phone", "array", "boolean"]

/-- Result of auto-detecting a field's type (`DetectionResult`). -/
structure DetectionResult where
  type : BuiltInRendererType
  confidence : Rat
deriving DecidableEq

/-- Prefix test for the regex `^https?:\x2f\x2f` with the `i` flag:
the string starts with `http://` or `https://`, case-insensitively. -/
def reProtoStart (s : String) : Bool :=
  List.isPrefixOf (("http://").data) (jsToLower s).data ||
  List.isPrefixOf (("https://").data) (jsToLower s).data

/-- Prefix test for the regex `^www\.` with the `i` flag. -/
def reWwwStart (s : String) : Bool :=
  List.isPrefixOf (("www.").data) (jsToLower s).data

/-- Lowercase letter or digit: the `[a-z0-9]` class of the domain regex
(input is pre-lowered, which models the `i` flag). -/
def isAlnumLow (c : Char) : Bool :=
  isLowerAlpha c || isDigitC c

/-- After a complete domain label, the regex needs at least one group
`\.[a-z]\x7b2,\x7d`; because its right end is unanchored, a dot followed
by two letters suffices. -/
def domainTail (cs : List Char) : Bool :=
  match cs with
  | '.' :: a :: b :: _ => isLowerAlpha a && isLowerAlpha b
  | _ => false

/-- Backtracking scan for the label part `[a-z0-9]([a-z0-9-]*[a-z0-9])?`
followed by `domainTail`: `lastAlnum` records whether the consumed prefix
currently ends in a letter or digit (a complete label). -/
def domainScan : Bool → List Char → Bool
  | _, [] => false
  | lastAlnum, c :: rest =>
    (lastAlnum && domainTail (c :: rest)) ||
    (if isAlnumLow c then domainScan true rest
     else if c == '-' then domainScan false rest
     else false)

/-- Match of `^[a-z0-9]([a-z0-9-]*[a-z0-9])?(\.[a-z]\x7b2,\x7d)+` with the
`i` flag against some prefix of the string. -/
def reDomainStart (s : String) : Bool :=
  match (jsToLower s).data with
  | [] => false
  | c :: rest => isAlnumLow c && domainScan true rest

/-- `isUrl` from `renderers/detection.ts`: explicit protocol, `www.`
prefix, or a bare domain-with-TLD pattern; domain-like strings that
contain `@` are excluded so email addresses are not claimed. -/
def isUrl (value : String) : Bool :=
  if reProtoStart value then true
  else if reWwwStart value then true
  else if reDomainStart value then
    (if value.data.contains '@' then false else true)
  else false

/-- Character class `[^\s@]` of the email regex. -/
def emailChar (c : Char) : Bool :=
  !isWs c && c != '@'

/-- A dot occurring strictly inside the list (neither first nor last
position), which is what `[^\s@]+\.[^\s@]+$` demands after the `@`. -/
def internalDot (l : List Char) : Bool :=
  ((l.drop 1).dropLast).contains '.'

/-- `isEmail` from `renderers/detection.ts`: the anchored regex
`^[^\s@]+@[^\s@]+\.[^\s@]+$`.  The part before the first `@` is nonempty
and `@`-free and whitespace-free; the part after it is nonempty, free of
`@` and whitespace, and contains an internal dot. -/
def isEmail (value : String) : Bool :=
  match breakAt '@' value.data with
  | some p =>
    !p.1.isEmpty && p.1.all emailChar && !p.2.isEmpty && p.2.all emailChar &&
    internalDot p.2
  | none => false

/-- Character class `[\d\s\-\(\)\+\.]` of the phone regex. -/
def phoneChar (c : Char) : Bool :=
  isDigitC c || isWs c || c == '-' || c == '(' || c == ')' || c == '+' || c == '.'

/-- `isPhone` from `renderers/detection.ts`: between 7 and 15 digits, at
least half of the characters are digits (`digitCount / length < 0.5`
rejects), and every character is in the phone whitelist. -/
def isPhone (value : String) : Bool :=
  let digitCount := (value.data.filter isDigitC).length
  if digitCount < 7 || digitCount > 15 then false
  else if 2 * digitCount < value.data.length then false
  else !value.data.isEmpty && value.data.all phoneChar

/-- Quote character of the quoted-array regex: `'` or `"`. -/
def isQuote (c : Char) : Bool :=
  c == Char.ofNat 39 || c == Char.ofNat 34

/-- The JS `.` (dot) without the `s` flag does not match line breaks. -/
def noLineBreak (l : List Char) : Bool :=
  l.all (fun c => c != Char.ofNat 10 && c != Char.ofNat 13)

/-- Anchored match of the quoted-array regex: an opening bracket, a quote,
any non-linebreak characters, a quote and a closing bracket. -/
def reQuotedArray (s : String) : Bool :=
  match s.data with
  | '[' :: q1 :: rest =>
    isQuote q1 &&
    (match rest.reverse with
     | ']' :: q2 :: mid => isQuote q2 && noLineBreak mid
     | _ => false)
  | _ => false

/-- Prefix match of `^[^,]+,\s*[^,]+`: at least one character before the
first comma, and the character right after that comma exists and is not a
comma (whitespace is itself an admissible `[^,]` character, so the `\s*`
never blocks the match). -/
def reCommaList (s : String) : Bool :=
  match breakAt ',' s.data with
  | some p =>
    !p.1.isEmpty &&
    (match p.2 with
     | c :: _ => c != ','
     | [] => false)
  | none => false

/-- Anchored match of `^\d+$`. -/
def reAllDigits (l : List Char) : Bool :=
  !l.isEmpty && l.all isDigitC

/-- `isArrayString` from `renderers/detection.ts`: a quoted JSON-like
array, or a comma-separated list with at least two nonempty trimmed
segments that are not all purely numeric. -/
def isArrayString (value : String) : Bool :=
  if reQuotedArray value then true
  else if reCommaList value then
    let parts := (splitOnC ',' value.data).map trimL
    if decide (parts.length ≥ 2) && parts.all (fun p => !p.isEmpty) then
      (if parts.all reAllDigits then false else true)
    else false
  else false

/-- `isBooleanString` from `renderers/detection.ts`. -/
def isBooleanString (value : String) : Bool :=
  ["true", "false", "yes", "no", "1", "0"].contains (jsToLower value)

/-- The confidence constant `1.0`, in reduced fraction form so that it
evaluates inside the kernel. -/
def conf100 : Rat := ⟨1, 1, by decide, by decide⟩

/-- The confidence constant `0.95` as the reduced fraction `19/20`. -/
def conf095 : Rat := ⟨19, 20, by decide, by decide⟩

/-- The confidence constant `0.9` as the reduced fraction `9/10`. -/
def conf090 : Rat := ⟨9, 10, by decide, by decide⟩

/-- The confidence constant `0.85` as the reduced fraction `17/20`. -/
def conf085 : Rat := ⟨17, 20, by decide, by decide⟩

/-- The confidence constant `0.8` as the reduced fraction `4/5`. -/
def conf080 : Rat := ⟨4, 5, by decide, by decide⟩

/-- The confidence constant `0.7` as the reduced fraction `7/10`. -/
def conf070 : Rat := ⟨7, 10, by decide, by decide⟩

/-- `detectFieldType` from `renderers/detection.ts`: native booleans first,
then the trimmed string value is tested against the URL, email, array,
phone and boolean-string rules in that order. -/
def detectFieldType (value : FieldValue) : Option DetectionResult :=
  match value with
  | FieldValue.bool _ => some (DetectionResult.mk BuiltInRendererType.boolean conf100)
  | _ =>
    let strValue := jsTrim (strOfValue value)
    if strValue.data.isEmpty then none
    else if isUrl strValue then some (DetectionResult.mk BuiltInRendererType.url conf095)
    else if isEmail strValue then some (DetectionResult.mk BuiltInRendererType.email conf090)
    else if isArrayString strValue then some (DetectionResult.mk BuiltInRendererType.array conf085)
    else if isPhone strValue then some (DetectionResult.mk BuiltInRendererType.phone conf070)
    else if isBooleanString strValue then some (DetectionResult.mk BuiltInRendererType.boolean conf080)
    else none

/-- `parseBooleanString` from `renderers/detection.ts`: lowercase, trim,
and compare against the three truthy spellings. -/
def parseBooleanString (value : String) : Bool :=
  ["true", "yes", "1"].contains (jsTrim (jsToLower value))

/-- Strip underscores, whitespace and hyphens after lowercasing: the
normalisation `fieldName.toLowerCase().replace(...)` used by the
standard-field mapper. -/
def stripNameChars (s : String) : String :=
  ⟨(jsToLower s).data.filter (fun c => !(c == '_' || isWs c || c == '-'))⟩

/-- `getStandardFieldRenderer` from `renderers/detection.ts`: the fixed
`standardMappings` record keyed by the stripped lowercase field name.
The lookup is modelled on the record's own keys and ordinary missing
names; `standardMappings` is itself a plain object literal, so field
names normalizing to a property inherited from `Object.prototype` (such
as `constructor`) would return a truthy host value in the program rather
than `null` — exotic names outside the standard table this function
documents and outside the scope drawn on here. -/
def getStandardFieldRenderer (fieldName : String) : Option BuiltInRendererType :=
  let n := stripNameChars fieldName
  if n = "website" ∨ n = "url" ∨ n = "link" ∨ n = "homepage" then
    some BuiltInRendererType.url
  else if n = "email" ∨ n = "mail" ∨ n = "emailaddress" then
    some BuiltInRendererType.email
  else if n = "phone" ∨ n = "telephone" ∨ n = "tel" ∨ n = "mobile" ∨
          n = "cell" ∨ n = "fax" then
    some BuiltInRendererType.phone
  else none

/-- Double-quote character. -/
def dquoteC : Char := Char.ofNat 34

/-- Single-quote character. -/
def squoteC : Char := Char.ofNat 39

/-- Backslash character. -/
def bslashC : Char := Char.ofNat 92

/-- Opening curly brace character. -/
def lbraceC : Char := Char.ofNat 123

/-- Closing curly brace character. -/
def rbraceC : Char := Char.ofNat 125

/-- JSON values, the possible results of the host `JSON.parse` (numbers
keep their source lexeme). -/
inductive Json where
  | jnull
  | jbool (b : Bool)
  | jnum (lexeme : String)
  | jstr (s : String)
  | jarr (items : List Json)
  | jobj (fields : List (String × Json))

/-- Whitespace accepted between JSON tokens (space, tab, LF, CR). -/
def jsonWsC (c : Char) : Bool :=
  c == ' ' || c == Char.ofNat 9 || c == Char.ofNat 10 || c == Char.ofNat 13

/-- Skip JSON inter-token whitespace. -/
def skipJsonWs (cs : List Char) : List Char :=
  cs.dropWhile jsonWsC

/-- Hexadecimal digit value. -/
def hexVal (c : Char) : Option Nat :=
  if 48 ≤ c.toNat ∧ c.toNat ≤ 57 then some (c.toNat - 48)
  else if 97 ≤ c.toNat ∧ c.toNat ≤ 102 then some (c.toNat - 87)
  else if 65 ≤ c.toNat ∧ c.toNat ≤ 70 then some (c.toNat - 55)
  else none

/-- Longest digit prefix and the remaining characters. -/
def digitSpan (cs : List Char) : List Char × List Char :=
  (cs.takeWhile isDigitC, cs.dropWhile isDigitC)

/-- Optional JSON fraction part `\.\d+`. -/
def jsonFrac (cs : List Char) : Option (List Char × List Char) :=
  match cs with
  | '.' :: rest =>
    let p := digitSpan rest
    if p.1.isEmpty then none else some ('.' :: p.1, p.2)
  | _ => some ([], cs)

/-- Optional JSON exponent part `[eE][+-]?\d+`. -/
def jsonExp (cs : List Char) : Option (List Char × List Char) :=
  match cs with
  | c :: rest =>
    if c == 'e' || c == 'E' then
      let sr : List Char × List Char :=
        match rest with
        | s :: r2 => if s == '+' || s == '-' then ([s], r2) else ([], rest)
        | [] => ([], rest)
      let p := digitSpan sr.2
      if p.1.isEmpty then none else some (c :: (sr.1 ++ p.1), p.2)
    else some ([], cs)
  | [] => some ([], cs)

/-- Fraction and exponent tail of a JSON number lexeme. -/
def jsonNumTail (acc : List Char) (cs : List Char) : Option (List Char × List Char) :=
  match jsonFrac cs with
  | none => none
  | some fr =>
    match jsonExp fr.2 with
    | none => none
    | some ex => some (acc ++ fr.1 ++ ex.1, ex.2)

/-- Lexer for a JSON number: optional minus sign, then `0` or a nonzero
digit followed by digits, then optional fraction and exponent. -/
def jsonNumberLex (cs : List Char) : Option (List Char × List Char) :=
  let sg : List Char × List Char :=
    match cs with
    | '-' :: rest => (['-'], rest)
    | _ => ([], cs)
  match sg.2 with
  | c :: rest =>
    if c == '0' then jsonNumTail (sg.1 ++ [c]) rest
    else if isDigitC c then
      let p := digitSpan rest
      jsonNumTail (sg.1 ++ (c :: p.1)) p.2
    else none
  | [] => none

/-- Body of a JSON string after its opening double quote: handles the
standard escapes and rejects raw control characters (surrogate pairs are
not recombined, which no claim depends on). -/
def jsonStringBody (fuel : Nat) (cs : List Char) (acc : List Char) :
    Option (String × List Char) :=
  match fuel with
  | 0 => none
  | f + 1 =>
    match cs with
    | [] => none
    | c :: rest =>
      if c == dquoteC then some (⟨acc.reverse⟩, rest)
      else if c == bslashC then
        match rest with
        | [] => none
        | e :: rest2 =>
          if e == dquoteC then jsonStringBody f rest2 (dquoteC :: acc)
          else if e == bslashC then jsonStringBody f rest2 (bslashC :: acc)
          else if e == '/' then jsonStringBody f rest2 ('/' :: acc)
          else if e == 'b' then jsonStringBody f rest2 (Char.ofNat 8 :: acc)
          else if e == 'f' then jsonStringBody f rest2 (Char.ofNat 12 :: acc)
          else if e == 'n' then jsonStringBody f rest2 (Char.ofNat 10 :: acc)
          else if e == 'r' then jsonStringBody f rest2 (Char.ofNat 13 :: acc)
          else if e == 't' then jsonStringBody f rest2 (Char.ofNat 9 :: acc)
          else if e == 'u' then
            match rest2 with
            | a :: b :: c2 :: d :: rest3 =>
              match hexVal a, hexVal b, hexVal c2, hexVal d with
              | some ha, some hb, some hc, some hd =>
                jsonStringBody f rest3
                  (Char.ofNat (((ha * 16 + hb) * 16 + hc) * 16 + hd) :: acc)
              | _, _, _, _ => none
            | _ => none
          else none
      else if c.toNat < 32 then none
      else jsonStringBody f rest (c :: acc)

mutual

/-- Recursive-descent model of the host `JSON.parse` on one value,
returning the value and the unconsumed characters; `none` models a thrown
`SyntaxError`.  The fuel argument only bounds recursion depth and loop
length and is chosen large enough at the top entry point. -/
def jsonValue : Nat → List Char → Option (Json × List Char)
  | 0, _ => none
  | f + 1, cs =>
    match cs with
    | [] => none
    | c :: rest =>
      if c == dquoteC then
        match jsonStringBody (f + 1) rest [] with
        | some p => some (Json.jstr p.1, p.2)
        | none => none
      else if c == '[' then
        match skipJsonWs rest with
        | ']' :: r2 => some (Json.jarr [], r2)
        | r => jsonArrayLoop f r []
      else if c == lbraceC then
        match skipJsonWs rest with
        | c2 :: r2 =>
          if c2 == rbraceC then some (Json.jobj [], r2)
          else jsonObjLoop f (c2 :: r2) []
        | [] => none
      else if List.isPrefixOf (("true").data) cs then some (Json.jbool true, cs.drop 4)
      else if List.isPrefixOf (("false").data) cs then some (Json.jbool false, cs.drop 5)
      else if List.isPrefixOf (("null").data) cs then some (Json.jnull, cs.drop 4)
      else
        match jsonNumberLex cs with
        | some p => some (Json.jnum (⟨p.1⟩ : String), p.2)
        | none => none

/-- Items of a JSON array after the opening bracket (first item pending). -/
def jsonArrayLoop : Nat → List Char → List Json → Option (Json × List Char)
  | 0, _, _ => none
  | f + 1, cs, acc =>
    match jsonValue f cs with
    | none => none
    | some vp =>
      match skipJsonWs vp.2 with
      | ']' :: r2 => some (Json.jarr (vp.1 :: acc).reverse, r2)
      | ',' :: r2 => jsonArrayLoop f (skipJsonWs r2) (vp.1 :: acc)
      | _ => none

/-- Members of a JSON object after the opening brace (first member
pending). -/
def jsonObjLoop : Nat → List Char → List (String × Json) →
    Option (Json × List Char)
  | 0, _, _ => none
  | f + 1, cs, acc =>
    match cs with
    | [] => none
    | c :: rest =>
      if c == dquoteC then
        match jsonStringBody (f + 1) rest [] with
        | none => none
        | some kp =>
          match skipJsonWs kp.2 with
          | ':' :: r2 =>
            match jsonValue f (skipJsonWs r2) with
            | none => none
            | some vp =>
              match skipJsonWs vp.2 with
              | c2 :: r3 =>
                if c2 == rbraceC then
                  some (Json.jobj ((kp.1, vp.1) :: acc).reverse, r3)
                else if c2 == ',' then
                  jsonObjLoop f (skipJsonWs r3) ((kp.1, vp.1) :: acc)
                else none
              | [] => none
          | _ => none
      else none

end

/-- Model of `JSON.parse`: parse one value surrounded by optional
whitespace; any leftover input is a syntax error. -/
def jsonParse (s : String) : Option Json :=
  match jsonValue (2 * s.data.length + 2) (skipJsonWs s.data) with
  | some p => if (skipJsonWs p.2).isEmpty then some p.1 else none
  | none => none

/-- Join a list of strings with commas, the `Array.prototype.join`
default. -/
def joinComma : List String → String
  | [] => ""
  | [x] => x
  | x :: y :: t => x ++ "," ++ joinComma (y :: t)

mutual

/-- Model of the JS `String(value)` coercion on parsed JSON values
(numbers are rendered by their lexeme; nested structures follow the
`Array.prototype.toString` join).  The fuel bounds nesting depth and is
instantiated above the value's size. -/
def jsStringOfJsonF : Nat → Json → String
  | 0, _ => ""
  | _ + 1, Json.jnull => "null"
  | _ + 1, Json.jbool b => if b then "true" else "false"
  | _ + 1, Json.jnum lexeme => lexeme
  | _ + 1, Json.jstr s => s
  | f + 1, Json.jarr items => joinComma (items.map (fun it => jsElemStringF f it))
  | _ + 1, Json.jobj _ => "[object Object]"

/-- Element rendering inside a joined array, where `null` renders empty. -/
def jsElemStringF : Nat → Json → String
  | 0, _ => ""
  | _ + 1, Json.jnull => ""
  | f + 1, j => jsStringOfJsonF f j

end

/-- `String(value)` on a JSON value parsed from `src`: the nesting depth
of a parsed value is bounded by the source length, so this fuel never runs
out on values `JSON.parse(src)` can return. -/
def jsStringOfJson (src : String) (j : Json) : String :=
  jsStringOfJsonF (2 * src.data.length + 2) j

/-- Replace every single quote by a double quote, the
`trimmed.replace(...)` retry of `parseArrayString`. -/
def convertQuotes (s : String) : String :=
  ⟨s.data.map (fun c => if c = squoteC then dquoteC else c)⟩

/-- The comma-split fallback of `parseArrayString`: split on commas, trim
each segment and drop the empty ones. -/
def commaSplitParts (s : String) : List String :=
  (((splitOnC ',' s.data).map trimL).filter (fun l => !l.isEmpty)).map
    (fun l => (⟨l⟩ : String))

/-- `parseArrayString` from `renderers/detection.ts`: for bracket-delimited
input try a strict JSON array parse, then a parse after single-to-double
quote conversion; a parse that throws (or a strict parse yielding a
non-array) falls through to the comma-split fallback. -/
def parseArrayString (value : String) : List String :=
  let trimmed := jsTrim value
  if headIs trimmed '[' && lastIs trimmed ']' then
    match jsonParse trimmed with
    | some (Json.jarr items) =>
      items.map (fun item => jsTrim (jsStringOfJson trimmed item))
    | some _ => commaSplitParts trimmed
    | none =>
      match jsonParse (convertQuotes trimmed) with
      | some (Json.jarr items) =>
        items.map (fun item => jsTrim (jsStringOfJson trimmed item))
      | _ => commaSplitParts trimmed
  else commaSplitParts trimmed

/-- Location record passed through to renderers for context; the built-in
renderers never inspect it, so it is abstracted to its custom-field list. -/
structure Location where
  extra : List (String × FieldValue)

/-- Presentation produced by a render call: the distinct output shapes of
the six built-in renderer components (plain span, anchor link, bulleted
list, styled yes-or-no flag), plus the two runtime outcomes reachable when
a plain-object lookup escapes the typed configuration: `hostObject` for a
host value that is not a presentation node (the result of invoking a
function inherited from `Object.prototype` as a renderer), and `typeError`
for the exception raised when the resolved value is not callable at all. -/
inductive Presentation where
  | span (s : String)
  | anchor (href : String) (display : String)
  | bulletList (items : List String)
  | boolBadge (value : Bool)
  | hostObject (descr : String)
  | typeError
deriving DecidableEq

/-- `FieldRendererFn`: a renderer maps value, field name and location to a
presentation. -/
def FieldRendererFn : Type :=
  FieldValue → String → Location → Presentation

/-- `formatTextValue` from `builtins/TextRenderer.tsx`. -/
def formatTextValue (value : FieldValue) : String :=
  match value with
  | FieldValue.bool b => if b then "Yes" else "No"
  | v => strOfValue v

/-- `textRendererFn`: plain-text span. -/
def textRendererFn : FieldRendererFn :=
  fun value _ _ => Presentation.span (formatTextValue value)

/-- `normalizeUrl` from `builtins/UrlRenderer.tsx`: prepend `https://`
when no protocol is present. -/
def normalizeUrl (url : String) : String :=
  let trimmed := jsTrim url
  if reProtoStart trimmed then trimmed else ("https://") ++ trimmed

/-- Strip a leading `http://` or `https://`, case-insensitively. -/
def stripProtoChars (l : List Char) : List Char :=
  if List.isPrefixOf (("https://").data) (l.map toLowerC) then l.drop 8
  else if List.isPrefixOf (("http://").data) (l.map toLowerC) then l.drop 7
  else l

/-- `formatDisplayUrl` from `builtins/UrlRenderer.tsx`: drop the protocol
and a trailing slash, cut to 50 characters, append an ellipsis when the
original was longer than 50 characters. -/
def formatDisplayUrl (url : String) : String :=
  let l1 := stripProtoChars url.data
  let l2 :=
    match l1.getLast? with
    | some c => if c == '/' then l1.dropLast else l1
    | none => l1
  (⟨l2.take 50⟩ : String) ++ (if url.data.length > 50 then ("...") else (""))

/-- `urlRendererFn`: anchor opening the normalised URL. -/
def urlRendererFn : FieldRendererFn :=
  fun value _ _ =>
    Presentation.anchor (normalizeUrl (strOfValue value))
      (formatDisplayUrl (strOfValue value))

/-- `emailRendererFn` from `builtins/EmailRenderer.tsx`: `mailto:` anchor
on the trimmed address. -/
def emailRendererFn : FieldRendererFn :=
  fun value _ _ =>
    Presentation.anchor (("mailto:") ++ jsTrim (strOfValue value))
      (jsTrim (strOfValue value))

/-- `formatPhoneForTel` from `builtins/PhoneRenderer.tsx`: remember a
leading plus, strip every non-digit (`replace` of the JS `\D` class), and
re-prepend the plus when it was there. -/
def formatPhoneForTel (phone : String) : String :=
  let hasPlus := headIs phone '+'
  let digits : String := ⟨phone.data.filter isDigitC⟩
  if hasPlus then ("+") ++ digits else digits

/-- Spec-side characterisation of the phone link target, following the
spec's words: the digit characters of the trimmed value, prefixed by a
single plus exactly when the trimmed value starts with one. -/
def telTargetSpec (t : String) : String :=
  if headIs t '+' then ("+") ++ (⟨t.data.filter isDigitC⟩ : String)
  else (⟨t.data.filter isDigitC⟩ : String)

/-- `phoneRendererFn`: `tel:` anchor whose visible text is the trimmed
phone string. -/
def phoneRendererFn : FieldRendererFn :=
  fun value _ _ =>
    let phone := jsTrim (strOfValue value)
    Presentation.anchor (("tel:") ++ formatPhoneForTel phone) phone

/-- `getArrayItems` from `builtins/ArrayRenderer.tsx` (the native-array
branch is unreachable for scalar field values). -/
def getArrayItems (value : FieldValue) : List String :=
  let strValue := jsTrim (strOfValue value)
  if strValue.data.isEmpty then [] else parseArrayString strValue

/-- `arrayRendererFn`: dash when empty, bare span for a single item,
bulleted list otherwise. -/
def arrayRendererFn : FieldRendererFn :=
  fun value _ _ =>
    match getArrayItems value with
    | [] => Presentation.span ("-")
    | [x] => Presentation.span x
    | items => Presentation.bulletList items

/-- `getBooleanValue` from `builtins/BooleanRenderer.tsx`. -/
def getBooleanValue (value : FieldValue) : Bool :=
  match value with
  | FieldValue.bool b => b
  | FieldValue.num n => n != 0
  | FieldValue.str s => parseBooleanString s

/-- `booleanRendererFn`: coloured yes-or-no flag. -/
def booleanRendererFn : FieldRendererFn :=
  fun value _ _ => Presentation.boolBadge (getBooleanValue value)

/-- Explicit configuration value (`FieldRendererConfigValue`): a renderer
type tag, a `String` at runtime, or a custom renderer function. -/
inductive FieldRendererConfigValue where
  | tag (t : String)
  | fn (f : FieldRendererFn)

/-- The `builtinMap` record indexed by its statically known keys. -/
def builtinFn : BuiltInRendererType → FieldRendererFn
  | BuiltInRendererType.text => textRendererFn
  | BuiltInRendererType.url => urlRendererFn
  | BuiltInRendererType.email => emailRendererFn
  | BuiltInRendererType.phone => phoneRendererFn
  | BuiltInRendererType.array => arrayRendererFn
  | BuiltInRendererType.boolean => booleanRendererFn

/-- The function-valued property names every plain object literal inherits
from `Object.prototype` (the `__proto__` accessor is handled separately:
its lookup result is not a function). -/
def protoKeys : List String :=
  ["constructor", "hasOwnProperty", "isPrototypeOf", "propertyIsEnumerable",
   "toLocaleString", "toString", "valueOf", "__defineGetter__",
   "__defineSetter__", "__lookupGetter__", "__lookupSetter__"]

/-- A function inherited from `Object.prototype` (such as the `Object`
constructor under the key `constructor`), as obtained by indexing a plain
object literal with its name: a truthy value, so the `if (!builtin)` guard
does not fire on it.  Invoked as a renderer it returns a host value that
is not a presentation node, modelled by `hostObject`. -/
def inheritedProtoFn (name : String) : FieldRendererFn :=
  fun _ _ _ => Presentation.hostObject name

/-- The result of reading `__proto__` on a plain object literal:
`Object.prototype` itself, a truthy host object that is not a function.
The program raises a `TypeError` at any call site that invokes it; the
model surfaces that failure as the `typeError` outcome when this constant
is applied. -/
def protoObjectValue : FieldRendererFn :=
  fun _ _ _ => Presentation.typeError

/-- The `builtinMap` record indexed by an arbitrary runtime string.  The
record is a plain object literal, so indexing consults the prototype
chain: the six own keys yield the renderer functions; `__proto__` yields
the non-callable `Object.prototype`; the other property names inherited
from `Object.prototype` yield truthy host functions; and any remaining key
yields `undefined`, modelled as `none`. -/
def builtinMapGet (t : String) : Option FieldRendererFn :=
  if t = "text" then some textRendererFn
  else if t = "url" then some urlRendererFn
  else if t = "email" then some emailRendererFn
  else if t = "phone" then some phoneRendererFn
  else if t = "array" then some arrayRendererFn
  else if t = "boolean" then some booleanRendererFn
  else if t = "__proto__" then some protoObjectValue
  else if t ∈ protoKeys then some (inheritedProtoFn t)
  else none

/-- Insertion into a JS `Map`, keeping the first-insertion position of an
existing key and appending a fresh key at the end. -/
def mapSet {α : Type} (m : List (String × α)) (k : String) (v : α) :
    List (String × α) :=
  if m.any (fun p => p.1 == k) then
    m.map (fun p => if p.1 == k then (k, v) else p)
  else m ++ [(k, v)]

/-- Lookup in a JS `Map`. -/
def mapGet {α : Type} (m : List (String × α)) (k : String) : Option α :=
  (m.find? (fun p => p.1 == k)).map (fun p => p.2)

/-- `FieldRendererRegistryOptions`: both fields optional. -/
structure RegistryOptions where
  renderers : Option (List (String × FieldRendererConfigValue))
  autoDetect : Option Bool

/-- State of a `FieldRendererRegistry`: the explicit renderer map (keys
stored lowercased) and the auto-detect flag. -/
structure FieldRendererRegistry where
  explicitRenderers : List (String × FieldRendererConfigValue)
  autoDetectEnabled : Bool

/-- The registry constructor: lowercase every configured key and default
`autoDetect` to `true`. -/
def makeRegistry (options : RegistryOptions) : FieldRendererRegistry :=
  FieldRendererRegistry.mk
    ((options.renderers.getD []).foldl
      (fun m kv => mapSet m (jsToLower kv.1) kv.2) [])
    (options.autoDetect.getD true)

/-- JS truthiness of an explicit entry, as tested by `if (explicit)`: a
custom function is always truthy, a tag is truthy unless it is the empty
string. -/
def configTruthy : FieldRendererConfigValue → Bool
  | FieldRendererConfigValue.tag t => t != ""
  | FieldRendererConfigValue.fn _ => true

/-- The explicit-configuration step shared by `getRenderer` and
`getRendererType`: `this.explicitRenderers.get(fieldName.toLowerCase())`
followed by the `if (explicit)` truthiness test. -/
def explicitHit (reg : FieldRendererRegistry) (fieldName : String) :
    Option FieldRendererConfigValue :=
  match mapGet reg.explicitRenderers (jsToLower fieldName) with
  | some c => if configTruthy c then some c else none
  | none => none

/-- `resolveRenderer`: a custom function is returned as is; a tag is
looked up among the built-ins and an unknown tag degrades to the text
renderer (after a logged warning, which the model does not carry). -/
def resolveRenderer (config : FieldRendererConfigValue) : FieldRendererFn :=
  match config with
  | FieldRendererConfigValue.fn f => f
  | FieldRendererConfigValue.tag t =>
    match builtinMapGet t with
    | some b => b
    | none => textRendererFn

/-- `getRenderer`: explicit configuration, then standard field mapping,
then auto-detection when enabled, then the text renderer. -/
def getRenderer (reg : FieldRendererRegistry) (fieldName : String)
    (value : FieldValue) : FieldRendererFn :=
  match explicitHit reg fieldName with
  | some c => resolveRenderer c
  | none =>
    match getStandardFieldRenderer fieldName with
    | some standardType => builtinFn standardType
    | none =>
      if reg.autoDetectEnabled then
        match detectFieldType value with
        | some detected => builtinFn detected.type
        | none => textRendererFn
      else textRendererFn

/-- `render`: resolve the renderer and apply it.  When resolution escapes
the typed configuration and produces the non-callable `Object.prototype`
value, the call throws; the model surfaces that as the `typeError`
outcome of the application. -/
def render (reg : FieldRendererRegistry) (fieldName : String)
    (value : FieldValue) (location : Location) : Presentation :=
  getRenderer reg fieldName value value fieldName location

/-- `hasExplicitRenderer`: membership test on the lowercased key (a plain
`Map.has`, with no truthiness filtering). -/
def hasExplicitRenderer (reg : FieldRendererRegistry) (fieldName : String) :
    Bool :=
  (mapGet reg.explicitRenderers (jsToLower fieldName)).isSome

/-- `registerRenderer`: store under the lowercased key. -/
def registerRenderer (reg : FieldRendererRegistry) (fieldName : String)
    (renderer : FieldRendererConfigValue) : FieldRendererRegistry :=
  FieldRendererRegistry.mk
    (mapSet reg.explicitRenderers (jsToLower fieldName) renderer)
    reg.autoDetectEnabled

/-- `getRendererType`: same resolution chain as `getRenderer` but
returning the type tag.  Its TypeScript annotation promises a
`BuiltInRendererType`, yet at runtime an explicit string tag is returned
verbatim without validation, so the model returns `String`. -/
def getRendererType (reg : FieldRendererRegistry) (fieldName : String)
    (value : FieldValue) : String :=
  match explicitHit reg fieldName with
  | some (FieldRendererConfigValue.tag t) => t
  | some (FieldRendererConfigValue.fn _) => "text"
  | none =>
    match getStandardFieldRenderer fieldName with
    | some standardType => standardType.name
    | none =>
      if reg.autoDetectEnabled then
        match detectFieldType value with
        | some detected => detected.type.name
        | none => "text"
      else "text"

/-- The literal string of fifteen characters spelling an array of three
single-quoted items a, b, c (single quotes written via their code point to
keep the source ASCII-clean). -/
def exArr1 : String :=
  ⟨['[', squoteC, 'a', squoteC, ',', ' ', squoteC, 'b', squoteC, ',', ' ',
    squoteC, 'c', squoteC, ']']⟩

/-- The malformed bracket-delimited literal: a single-quoted item whose
body contains a double quote, so both JSON parse attempts fail. -/
def exMalformed : String :=
  ⟨['[', squoteC, 'x', dquoteC, 'y', squoteC, ']']⟩

theorem mapGet_set_replace {α : Type} (m : List (String × α)) (k : String) (v : α)
    (h : m.any (fun p => p.1 == k) = true) :
    mapGet (m.map (fun p => if p.1 == k then (k, v) else p)) k = some v := by
  induction m with
  | nil => simp at h
  | cons p t ih =>
    by_cases hp : (p.1 == k) = true
    · simp [mapGet, List.find?, hp]
    · have ht : t.any (fun p => p.1 == k) = true := by
        simp only [List.any_cons, Bool.or_eq_true] at h
        rcases h with h | h
        · exact absurd h hp
        · exact h
      have := ih ht
      simp only [List.map_cons, hp, if_false, mapGet, List.find?] at this ⊢
      simpa [hp] using this

theorem mapGet_append_single {α : Type} (m : List (String × α)) (k : String) (v : α)
    (h : m.any (fun p => p.1 == k) = false) :
    mapGet (m ++ [(k, v)]) k = some v := by
  induction m with
  | nil => simp [mapGet, List.find?]
  | cons p t ih =>
    simp only [List.any_cons, Bool.or_eq_false_iff] at h
    have := ih h.2
    simp only [List.cons_append, mapGet, List.find?, h.1] at this ⊢
    simpa [h.1] using this

theorem mapGet_mapSet_self {α : Type} (m : List (String × α)) (k : String) (v : α) :
    mapGet (mapSet m k v) k = some v := by
  unfold mapSet
  by_cases h : m.any (fun p => p.1 == k) = true
  · simpa [h] using mapGet_set_replace m k v h
  · have h' : m.any (fun p => p.1 == k) = false := by
      cases hx : m.any (fun p => p.1 == k)
      · rfl
      · exact absurd hx h
    simpa [h'] using mapGet_append_single m k v h'

theorem explicitHit_tag (reg : FieldRendererRegistry) (fieldName t : String)
    (hm : mapGet reg.explicitRenderers (jsToLower fieldName) =
      some (FieldRendererConfigValue.tag t)) (hne : t ≠ "") :
    explicitHit reg fieldName = some (FieldRendererConfigValue.tag t) := by
  unfold explicitHit
  rw [hm]
  simp [configTruthy, bne_iff_ne, hne]

theorem explicitHit_fn (reg : FieldRendererRegistry) (fieldName : String)
    (f : FieldRendererFn)
    (hm : mapGet reg.explicitRenderers (jsToLower fieldName) =
      some (FieldRendererConfigValue.fn f)) :
    explicitHit reg fieldName = some (FieldRendererConfigValue.fn f) := by
  unfold explicitHit
  rw [hm]
  simp [configTruthy]

theorem explicitHit_none (reg : FieldRendererRegistry) (fieldName : String)
    (hm : mapGet reg.explicitRenderers (jsToLower fieldName) = none) :
    explicitHit reg fieldName = none := by
  unfold explicitHit
  rw [hm]

theorem getRendererType_hit_tag (reg : FieldRendererRegistry)
    (fieldName t : String) (v : FieldValue)
    (h : explicitHit reg fieldName = some (FieldRendererConfigValue.tag t)) :
    getRendererType reg fieldName v = t := by
  unfold getRendererType
  rw [h]

theorem getRendererType_hit_fn (reg : FieldRendererRegistry)
    (fieldName : String) (f : FieldRendererFn) (v : FieldValue)
    (h : explicitHit reg fieldName = some (FieldRendererConfigValue.fn f)) :
    getRendererType reg fieldName v = "text" := by
  unfold getRendererType
  rw [h]

theorem getRenderer_hit (reg : FieldRendererRegistry) (fieldName : String)
    (c : FieldRendererConfigValue) (v : FieldValue)
    (h : explicitHit reg fieldName = some c) :
    getRenderer reg fieldName v = resolveRenderer c := by
  unfold getRenderer
  rw [h]

theorem getRenderer_std (reg : FieldRendererRegistry) (fieldName : String)
    (ty : BuiltInRendererType) (v : FieldValue)
    (h : explicitHit reg fieldName = none)
    (hstd : getStandardFieldRenderer fieldName = some ty) :
    getRenderer reg fieldName v = builtinFn ty := by
  unfold getRenderer
  rw [h, hstd]

theorem getRendererType_std (reg : FieldRendererRegistry) (fieldName : String)
    (ty : BuiltInRendererType) (v : FieldValue)
    (h : explicitHit reg fieldName = none)
    (hstd : getStandardFieldRenderer fieldName = some ty) :
    getRendererType reg fieldName v = ty.name := by
  unfold getRendererType
  rw [h, hstd]

theorem stripNameChars_congr (f f' : String) (h : jsToLower f' = jsToLower f) :
    stripNameChars f' = stripNameChars f := by
  unfold stripNameChars
  rw [h]

theorem getStandardFieldRenderer_congr (f f' : String)
    (h : jsToLower f' = jsToLower f) :
    getStandardFieldRenderer f' = getStandardFieldRenderer f := by
  unfold getStandardFieldRenderer
  rw [stripNameChars_congr f f' h]

/-- C1: when the explicit configuration holds an entry for the lowercased
field name, `getRendererType` returns the entry's renderer-type tag when
the entry is a tag and the tag `text` when the entry is a custom function,
for every field value, so value-based detection is never consulted. -/
theorem getRendererType_explicit_override (reg : FieldRendererRegistry)
    (fieldName : String) (v : FieldValue) :
    (∀ t : String, t ∈ builtinNames →
      mapGet reg.explicitRenderers (jsToLower fieldName) =
        some (FieldRendererConfigValue.tag t) →
      getRendererType reg fieldName v = t) ∧
    (∀ f : FieldRendererFn,
      mapGet reg.explicitRenderers (jsToLower fieldName) =
        some (FieldRendererConfigValue.fn f) →
      getRendererType reg fieldName v = "text") := by
  constructor
  · intro t hmem hm
    have hne : t ≠ "" := by
      intro he
      subst he
      simp [builtinNames] at hmem
    exact getRendererType_hit_tag reg fieldName t v
      (explicitHit_tag reg fieldName t hm hne)
  · intro f hm
    exact getRendererType_hit_fn reg fieldName f v
      (explicitHit_fn reg fieldName f hm)

/-- C1 witness: the registry built from the single explicit entry mapping
`status` to the tag `url` resolves field `status` with value `hello` to
`url`. -/
theorem getRendererType_explicit_override_witness :
    getRendererType
      (makeRegistry (RegistryOptions.mk
        (some [("status", FieldRendererConfigValue.tag ("url"))]) none))
      ("status") (FieldValue.str ("hello")) = "url" :=
  (getRendererType_explicit_override
    (makeRegistry (RegistryOptions.mk
      (some [("status", FieldRendererConfigValue.tag ("url"))]) none))
    ("status") (FieldValue.str ("hello"))).1 ("url") (by decide) (by rfl)

/-- C2: with no explicit entry for the field name, a standard-field
mapping hit determines both the renderer and the renderer type for every
value, so value-based detection is never consulted. -/
theorem standard_mapping_beats_detection (reg : FieldRendererRegistry)
    (fieldName : String) (v : FieldValue) (ty : BuiltInRendererType)
    (hexp : mapGet reg.explicitRenderers (jsToLower fieldName) = none)
    (hstd : getStandardFieldRenderer fieldName = some ty) :
    getRenderer reg fieldName v = builtinFn ty ∧
    getRendererType reg fieldName v = ty.name := by
  have h := explicitHit_none reg fieldName hexp
  exact ⟨getRenderer_std reg fieldName ty v h hstd,
    getRendererType_std reg fieldName ty v h hstd⟩

/-- C2 witness: on an unconfigured registry, field `Website` with value
`not a url at all` resolves to the url renderer. -/
theorem standard_mapping_beats_detection_witness :
    getRenderer (makeRegistry (RegistryOptions.mk none none)) ("Website")
      (FieldValue.str ("not a url at all")) = urlRendererFn ∧
    getRendererType (makeRegistry (RegistryOptions.mk none none)) ("Website")
      (FieldValue.str ("not a url at all")) = "url" :=
  standard_mapping_beats_detection (makeRegistry (RegistryOptions.mk none none))
    ("Website") (FieldValue.str ("not a url at all")) BuiltInRendererType.url
    (by rfl) (by decide)

/-- C3: the numeric comma pair detects as nothing at all (neither array
nor phone), while the word list detects as an array with confidence
`0.85`. -/
theorem detect_numeric_pair_vs_word_list :
    detectFieldType (FieldValue.str ("123,456")) = none ∧
    isArrayString ("123,456") = false ∧
    isPhone ("123,456") = false ∧
    detectFieldType (FieldValue.str ("Red, Blue, Green")) =
      some (DetectionResult.mk BuiltInRendererType.array conf085) ∧
    conf085 = 0.85 := by
  refine ⟨by decide, by decide, by decide, by decide, ?_⟩
  show Rat.mk' 17 20 (by decide) (by decide) = 0.85
  rw [Rat.mk'_eq_divInt]
  norm_num [Rat.divInt_eq_div]

/-- C4: the plain address detects as email with confidence `0.9` and is
not a URL; the bare-domain branch of the URL test never claims a string
containing an at-sign, so such a string is a URL only via the protocol or
www prefixes. -/
theorem detect_email_not_url :
    detectFieldType (FieldValue.str ("user@example.com")) =
      some (DetectionResult.mk BuiltInRendererType.email conf090) ∧
    conf090 = 0.9 ∧
    isUrl ("user@example.com") = false ∧
    (∀ s : String, s.data.contains '@' = true →
      isUrl s = (reProtoStart s || reWwwStart s)) := by
  refine ⟨by decide, ?_, by decide, ?_⟩
  · show Rat.mk' 9 10 (by decide) (by decide) = 0.9
    rw [Rat.mk'_eq_divInt]
    norm_num [Rat.divInt_eq_div]
  · intro s h
    have h' : '@' ∈ s.data := by simpa using h
    unfold isUrl
    cases hp : reProtoStart s <;> cases hw : reWwwStart s <;>
      cases hd : reDomainStart s <;> simp [h', hp, hw, hd]

/-- C4 witness: the at-sign exclusion applied at a tiny concrete string. -/
theorem detect_email_not_url_witness :
    isUrl ("a@b") = (reProtoStart ("a@b") || reWwwStart ("a@b")) :=
  detect_email_not_url.2.2.2 ("a@b") (by decide)

/-- C5 counterexample: explicit matching does not trim.  Registering under
`status` and querying with a trailing blank misses the entry entirely (and
resolution falls through to `text`), refuting the claim that
leading-or-trailing-whitespace variants hit the same explicit entry. -/
theorem explicit_match_whitespace_counterexample :
    hasExplicitRenderer
      (registerRenderer (makeRegistry (RegistryOptions.mk none none))
        ("status") (FieldRendererConfigValue.tag ("url"))) ("status") = true ∧
    hasExplicitRenderer
      (registerRenderer (makeRegistry (RegistryOptions.mk none none))
        ("status") (FieldRendererConfigValue.tag ("url"))) ("status ") = false ∧
    getRendererType
      (registerRenderer (makeRegistry (RegistryOptions.mk none none))
        ("status") (FieldRendererConfigValue.tag ("url"))) ("status")
      (FieldValue.str ("x")) = "url" ∧
    getRendererType
      (registerRenderer (makeRegistry (RegistryOptions.mk none none))
        ("status") (FieldRendererConfigValue.tag ("url"))) ("status ")
      (FieldValue.str ("x")) = "text" := by
  refine ⟨by rfl, by rfl, by rfl, by rfl⟩

/-- C5 amended: explicit matching normalizes by lowercasing only.  Any
query differing from the registered name only in letter case hits the same
explicit entry, and `getRenderer` and `getRendererType` agree with the
original spelling. -/
theorem explicit_match_case_insensitive (reg : FieldRendererRegistry)
    (f f' : String) (r : FieldRendererConfigValue) (v : FieldValue)
    (h : jsToLower f' = jsToLower f) :
    mapGet (registerRenderer reg f r).explicitRenderers (jsToLower f') = some r ∧
    hasExplicitRenderer (registerRenderer reg f r) f' = true ∧
    getRenderer (registerRenderer reg f r) f' v =
      getRenderer (registerRenderer reg f r) f v ∧
    getRendererType (registerRenderer reg f r) f' v =
      getRendererType (registerRenderer reg f r) f v := by
  have hg : mapGet (registerRenderer reg f r).explicitRenderers (jsToLower f') =
      some r := by
    rw [h]
    exact mapGet_mapSet_self reg.explicitRenderers (jsToLower f) r
  refine ⟨hg, ?_, ?_, ?_⟩
  · unfold hasExplicitRenderer
    rw [hg]
    rfl
  · unfold getRenderer explicitHit
    rw [h, getStandardFieldRenderer_congr f f' h]
  · unfold getRendererType explicitHit
    rw [h, getStandardFieldRenderer_congr f f' h]

/-- C5 amended witness: registering under `Status` and resolving under
`status` hits the registered url entry. -/
theorem explicit_match_case_insensitive_witness :
    mapGet (registerRenderer (makeRegistry (RegistryOptions.mk none none))
        ("Status") (FieldRendererConfigValue.tag ("url"))).explicitRenderers
      (jsToLower ("status")) = some (FieldRendererConfigValue.tag ("url")) ∧
    hasExplicitRenderer
      (registerRenderer (makeRegistry (RegistryOptions.mk none none))
        ("Status") (FieldRendererConfigValue.tag ("url"))) ("status") = true :=
  ⟨(explicit_match_case_insensitive (makeRegistry (RegistryOptions.mk none none))
      ("Status") ("status") (FieldRendererConfigValue.tag ("url"))
      (FieldValue.str ("x")) (by decide)).1,
   (explicit_match_case_insensitive (makeRegistry (RegistryOptions.mk none none))
      ("Status") ("status") (FieldRendererConfigValue.tag ("url"))
      (FieldValue.str ("x")) (by decide)).2.1⟩

/-- C6: the three-tier fallback of `parseArrayString`: the single-quoted
array round-trips through the quote-converted JSON parse, the bare
comma-separated list splits on commas, and the malformed bracket-delimited
literal, whose JSON parse fails both strictly and after quote conversion,
falls back to the comma split (in general and at the concrete input, where
it returns the whole literal as its single item) and never throws. -/
theorem parseArrayString_three_tier :
    parseArrayString exArr1 = ["a", "b", "c"] ∧
    parseArrayString ("a, b, c") = ["a", "b", "c"] ∧
    jsonParse (jsTrim exMalformed) = none ∧
    jsonParse (convertQuotes (jsTrim exMalformed)) = none ∧
    parseArrayString exMalformed = commaSplitParts (jsTrim exMalformed) ∧
    parseArrayString exMalformed = [exMalformed] ∧
    (∀ s : String,
      (headIs (jsTrim s) '[' && lastIs (jsTrim s) ']') = true →
      jsonParse (jsTrim s) = none →
      jsonParse (convertQuotes (jsTrim s)) = none →
      parseArrayString s = commaSplitParts (jsTrim s)) := by
  refine ⟨by decide, by decide, by rfl, by rfl, by decide, by decide, ?_⟩
  intro s hb h1 h2
  simp only [parseArrayString, hb, h1, h2, if_true]

/-- C6 witness: the generic fallback clause applied at the malformed
literal. -/
theorem parseArrayString_three_tier_witness :
    parseArrayString exMalformed = commaSplitParts (jsTrim exMalformed) :=
  parseArrayString_three_tier.2.2.2.2.2.2 exMalformed (by decide) (by rfl) (by rfl)

/-- C7 counterexample: the claim fails outside the six built-in tags in
three distinct ways.  The empty tag is skipped by the JS truthiness test,
so field `website` resolves through the standard mapping to the url
renderer and `render` produces the url anchor, not the text span; the tag
`constructor` resolves, through the prototype chain of the plain-object
`builtinMap`, to the inherited truthy `Object` constructor rather than the
text renderer, and `render` yields a host value instead of the text
presentation; and the tag `__proto__` resolves to the non-callable
`Object.prototype`, so the render call throws rather than never failing. -/
theorem unknown_tag_counterexample :
    builtinMapGet ("") = none ∧
    getRenderer
      (makeRegistry (RegistryOptions.mk
        (some [("website", FieldRendererConfigValue.tag (""))]) none))
      ("website") (FieldValue.str ("x")) = urlRendererFn ∧
    render
      (makeRegistry (RegistryOptions.mk
        (some [("website", FieldRendererConfigValue.tag (""))]) none))
      ("website") (FieldValue.str ("x")) (Location.mk []) ≠
      textRendererFn (FieldValue.str ("x")) ("website") (Location.mk []) ∧
    getRenderer
      (makeRegistry (RegistryOptions.mk
        (some [("status", FieldRendererConfigValue.tag ("constructor"))]) none))
      ("status") (FieldValue.str ("x")) = inheritedProtoFn ("constructor") ∧
    render
      (makeRegistry (RegistryOptions.mk
        (some [("status", FieldRendererConfigValue.tag ("constructor"))]) none))
      ("status") (FieldValue.str ("x")) (Location.mk []) ≠
      textRendererFn (FieldValue.str ("x")) ("status") (Location.mk []) ∧
    render
      (makeRegistry (RegistryOptions.mk
        (some [("status", FieldRendererConfigValue.tag ("__proto__"))]) none))
      ("status") (FieldValue.str ("x")) (Location.mk []) =
      Presentation.typeError := by
  refine ⟨by rfl, by rfl, by decide, by rfl, by decide, by rfl⟩

/-- C7 amended: for a nonempty explicit tag that is neither one of the six
built-in types nor a property name inherited from `Object.prototype`
(i.e. `builtinMap[tag]` is genuinely `undefined`), `getRenderer` returns
the built-in text renderer and `render` produces the text presentation,
never failing. -/
theorem unknown_tag_falls_back_to_text (reg : FieldRendererRegistry)
    (fieldName t : String) (v : FieldValue) (loc : Location)
    (hm : mapGet reg.explicitRenderers (jsToLower fieldName) =
      some (FieldRendererConfigValue.tag t))
    (hne : t ≠ "") (hnb : builtinMapGet t = none) :
    getRenderer reg fieldName v = textRendererFn ∧
    render reg fieldName v loc = textRendererFn v fieldName loc := by
  have hh := explicitHit_tag reg fieldName t hm hne
  have h1 : getRenderer reg fieldName v = textRendererFn := by
    rw [getRenderer_hit reg fieldName (FieldRendererConfigValue.tag t) v hh]
    simp only [resolveRenderer, hnb]
  refine ⟨h1, ?_⟩
  unfold render
  rw [h1]

/-- C7 amended witness: the unrecognized tag `banana` degrades to the text
renderer and the text presentation. -/
theorem unknown_tag_falls_back_to_text_witness :
    getRenderer
      (makeRegistry (RegistryOptions.mk
        (some [("status", FieldRendererConfigValue.tag ("banana"))]) none))
      ("status") (FieldValue.str ("x")) = textRendererFn ∧
    render
      (makeRegistry (RegistryOptions.mk
        (some [("status", FieldRendererConfigValue.tag ("banana"))]) none))
      ("status") (FieldValue.str ("x")) (Location.mk []) =
      textRendererFn (FieldValue.str ("x")) ("status") (Location.mk []) :=
  unknown_tag_falls_back_to_text
    (makeRegistry (RegistryOptions.mk
      (some [("status", FieldRendererConfigValue.tag ("banana"))]) none))
    ("status") ("banana") (FieldValue.str ("x")) (Location.mk [])
    (by rfl) (by decide) (by rfl)

/-- C8: the phone renderer emits a `tel:` anchor whose target is the digit
characters of the trimmed value, prefixed by a single plus exactly when
the trimmed value starts with one, and whose visible text is the trimmed
value unmodified; in particular the bracketed-dashed number yields target
`5551234567`. -/
theorem phone_renderer_tel_target (v : FieldValue) (fieldName : String)
    (loc : Location) :
    phoneRendererFn v fieldName loc =
      Presentation.anchor (("tel:") ++ telTargetSpec (jsTrim (strOfValue v)))
        (jsTrim (strOfValue v)) ∧
    phoneRendererFn (FieldValue.str ("(555) 123-4567")) fieldName loc =
      Presentation.anchor ("tel:5551234567") ("(555) 123-4567") := by
  constructor
  · cases h : headIs (jsTrim (strOfValue v)) '+' <;>
      simp [phoneRendererFn, formatPhoneForTel, telTargetSpec, h]
  · rfl

/-- C9: `parseBooleanString` is total by construction and returns `true`
exactly when the trimmed lowercased input is `true`, `yes` or `1`;
everything else, including the empty string, `0`, `no`, `false` and
garbage, returns `false`. -/
theorem parseBooleanString_total_spec :
    (∀ s : String, parseBooleanString s = true ↔
      (jsTrim (jsToLower s) = "true" ∨ jsTrim (jsToLower s) = "yes" ∨
        jsTrim (jsToLower s) = "1")) ∧
    parseBooleanString ("") = false ∧
    parseBooleanString ("0") = false ∧
    parseBooleanString ("no") = false ∧
    parseBooleanString ("false") = false ∧
    parseBooleanString ("garbage input 42") = false := by
  refine ⟨?_, by decide, by decide, by decide, by decide, by decide⟩
  intro s
  unfold parseBooleanString
  simp [List.contains, List.elem_iff]

/-- C9 witness: the characterisation applied at a padded uppercase
spelling. -/
theorem parseBooleanString_total_spec_witness :
    parseBooleanString ("  YES ") = true :=
  (parseBooleanString_total_spec.1 ("  YES ")).mpr (by decide)

/-- C10 counterexample: the claim fails in both of its parts.  An explicit
empty-string tag is stored in the configuration, yet `getRendererType`
does not return it verbatim: the truthiness test skips the entry and the
standard mapping answers `url` for field `website`.  And for the stored
tag `constructor` — returned verbatim by `getRendererType` — `getRenderer`
does not fall back to the text renderer: the plain-object `builtinMap`
lookup yields the truthy inherited `Object` constructor, so `render`
produces a host value rather than the text presentation. -/
theorem getRendererType_tag_counterexample :
    mapGet
      (makeRegistry (RegistryOptions.mk
        (some [("website", FieldRendererConfigValue.tag (""))]) none)).explicitRenderers
      ("website") = some (FieldRendererConfigValue.tag ("")) ∧
    getRendererType
      (makeRegistry (RegistryOptions.mk
        (some [("website", FieldRendererConfigValue.tag (""))]) none))
      ("website") (FieldValue.str ("x")) = "url" ∧
    getRendererType
      (makeRegistry (RegistryOptions.mk
        (some [("status", FieldRendererConfigValue.tag ("constructor"))]) none))
      ("status") (FieldValue.str ("x")) = "constructor" ∧
    getRenderer
      (makeRegistry (RegistryOptions.mk
        (some [("status", FieldRendererConfigValue.tag ("constructor"))]) none))
      ("status") (FieldValue.str ("x")) = inheritedProtoFn ("constructor") ∧
    render
      (makeRegistry (RegistryOptions.mk
        (some [("status", FieldRendererConfigValue.tag ("constructor"))]) none))
      ("status") (FieldValue.str ("x")) (Location.mk []) ≠
      textRendererFn (FieldValue.str ("x")) ("status") (Location.mk []) := by
  refine ⟨by rfl, by rfl, by rfl, by rfl, by decide⟩

/-- C10 amended: a nonempty explicit string tag is returned verbatim by
`getRendererType` without validation against the built-in set, even while
`getRenderer` for the same configuration falls back to the text renderer
when the tag is unrecognized and not a property name inherited from
`Object.prototype` (i.e. `builtinMap[tag]` is genuinely `undefined`). -/
theorem getRendererType_verbatim_tag (reg : FieldRendererRegistry)
    (fieldName t : String) (v : FieldValue)
    (hm : mapGet reg.explicitRenderers (jsToLower fieldName) =
      some (FieldRendererConfigValue.tag t))
    (hne : t ≠ "") :
    getRendererType reg fieldName v = t ∧
    (builtinMapGet t = none → getRenderer reg fieldName v = textRendererFn) := by
  have hh := explicitHit_tag reg fieldName t hm hne
  refine ⟨getRendererType_hit_tag reg fieldName t v hh, ?_⟩
  intro hnb
  rw [getRenderer_hit reg fieldName (FieldRendererConfigValue.tag t) v hh]
  simp only [resolveRenderer, hnb]

/-- C10 amended witness: the tag `banana` comes back verbatim from
`getRendererType` while `getRenderer` yields the text renderer. -/
theorem getRendererType_verbatim_tag_witness :
    getRendererType
      (makeRegistry (RegistryOptions.mk
        (some [("status", FieldRendererConfigValue.tag ("banana"))]) none))
      ("status") (FieldValue.str ("hello")) = "banana" ∧
    getRenderer
      (makeRegistry (RegistryOptions.mk
        (some [("status", FieldRendererConfigValue.tag ("banana"))]) none))
      ("status") (FieldValue.str ("hello")) = textRendererFn :=
  ⟨(getRendererType_verbatim_tag
      (makeRegistry (RegistryOptions.mk
        (some [("status", FieldRendererConfigValue.tag ("banana"))]) none))
      ("status") ("banana") (FieldValue.str ("hello"))
      (by rfl) (by decide)).1,
   (getRendererType_verbatim_tag
      (makeRegistry (RegistryOptions.mk
        (some [("status", FieldRendererConfigValue.tag ("banana"))]) none))
      ("status") ("banana") (FieldValue.str ("hello"))
      (by rfl) (by decide)).2 (by rfl)⟩

end LMW
